import Mathlib

/-!
# Verification of the pinentry Touch ID gatekeeper core

A shallow embedding of `main.go`: the request parser built from the two
regular expressions `emailRegex` and `keyIDRegex`, the keychain helpers
`checkEntryInKeychain`, `passwordFromKeychain` and `storePasswordInKeychain`,
and the `GetPIN` orchestration closure.  External effects (keychain queries,
Touch ID, the pinentry-mac helper) are supplied by an explicit environment,
and a run records its outcome, the log lines written, the sequence of store
operations performed, and the final store contents.
-/

/-- Strings are modelled as explicit character lists, mirroring Go's
byte-level string handling for the operations the program performs. -/
abbrev Str := List Char

/-- Characters matched by `.` in a Go regular expression: everything except
a newline. -/
def lineOf (l : Str) : Str := l.takeWhile (fun c => c ≠ '\n')

/-- Matching attempt of `emailRegex` = `\"(?P<name>.*<(?P<email>.*)>)\"` at a
fixed opening quote: `L` is the text after the quote, restricted to the
current line.  Go's leftmost-first backtracking with greedy `.*` selects the
last `>"` occurrence in the line and the last `<` before it.  Returns
(group 1, group 2) = (name-with-email part, email). -/
def emailTryAt (L : Str) : Option (Str × Str) :=
  match ((List.range L.length).filter
      (fun j => (L[j]? == some '>') && (L[j+1]? == some '"'))).getLast? with
  | none => none
  | some j =>
    match ((List.range j).filter (fun i => L[i]? == some '<')).getLast? with
    | none => none
    | some i => some (L.take (j+1), (L.drop (i+1)).take (j - i - 1))

/-- `emailRegex.FindStringSubmatch`: scan for the leftmost opening `"` at
which the rest of the pattern matches. -/
def emailScan : Str → Option (Str × Str)
  | [] => none
  | c :: rest =>
    if c = '"' then
      match emailTryAt (lineOf rest) with
      | some r => some r
      | none => emailScan rest
    else emailScan rest

/-- Matching attempt of `keyIDRegex` = `ID (?P<keyId>.*),` after a literal
`ID `: greedy `.*` takes everything up to the last comma on the line. -/
def keyIdTry (L : Str) : Option Str :=
  match ((List.range L.length).filter (fun q => L[q]? == some ',')).getLast? with
  | none => none
  | some q => some (L.take q)

/-- `keyIDRegex.FindStringSubmatch`: scan for the leftmost `ID ` occurrence
followed by a comma on the same line. -/
def keyIdScan : Str → Option Str
  | [] => none
  | c :: rest =>
    if c = 'I' then
      match rest with
      | 'D' :: ' ' :: tail =>
        match keyIdTry (lineOf tail) with
        | some k => some k
        | none => keyIdScan rest
      | _ => keyIdScan rest
    else keyIdScan rest

/-- `strings.Split(matches[1], " <")[0]`: the prefix of the name group before
the first occurrence of the two-character separator `" <"` (the whole string
when the separator is absent). -/
def splitBefore : Str → Str
  | ' ' :: '<' :: _ => []
  | [] => []
  | c :: rest => c :: splitBefore rest

/-- Result of the identity-extraction prefix of `GetPIN` (lines 153-161 of
`main.go`).  A missing regex match makes Go index a nil slice — a runtime
panic; a key ID of the wrong length runs `logger.Fatalf`. -/
inductive ParseResult
  | ok (name email keyID : Str)
  | panicEmail
  | panicKeyId
  | badKeyId (keyID : Str)
deriving DecidableEq, Repr

/-- The identity-extraction prefix of `GetPIN`: email/name regex, key ID
regex, and the 8-or-16-character check, in source order. -/
def parseDesc (desc : Str) : ParseResult :=
  match emailScan desc with
  | none => .panicEmail
  | some (nameGroup, email) =>
    match keyIdScan desc with
    | none => .panicKeyId
    | some keyID =>
      if keyID.length = 8 ∨ keyID.length = 16 then
        .ok (splitBefore nameGroup) email keyID
      else .badKeyId keyID

/-- `true` exactly when parsing reaches the keychain-label computation. -/
def parseOk (desc : Str) : Bool :=
  match parseDesc desc with
  | .ok _ _ _ => true
  | _ => false

/-- A generic-password keychain item as this program creates and reads it:
`SetLabel`, `SetAccount` (the `keyInfo` cache id), and `SetData` (the pin). -/
structure SecretRecord where
  label : Str
  account : Str
  payload : Str
deriving DecidableEq, Repr

/-- The keychain contents visible through the label-scoped queries. -/
abbrev Store := List SecretRecord

/-- `checkEntryInKeychain`'s successful result: the metadata-only query with
`MatchLimitOne` returns one item exactly when some item carries the label. -/
def storeHas (st : Store) (label : Str) : Bool :=
  st.any (fun r => r.label == label)

/-- The two fields of `pinentry.Settings` that `GetPIN` reads: `Desc` and
`KeyInfo`. -/
structure Settings where
  desc : Str
  keyInfo : Str
deriving DecidableEq, Repr

/-- `keychain.AddItem` outcomes other than success:
`keychain.ErrorDuplicateItem` or any other error. -/
inductive CreateErr
  | duplicate
  | other (msg : Str)
deriving DecidableEq, Repr

/-- Result of the Touch ID callback `fn(reason) (bool, error)`. -/
inductive AuthResult
  | err (msg : Str)
  | ok (allowed : Bool)
deriving DecidableEq, Repr

/-- The environment: every value the external collaborators hand back during
one `GetPIN` call, in the order the call consumes them. -/
structure Env where
  /-- keychain contents when the call starts -/
  st : Store
  /-- error from the first `checkEntryInKeychain` -/
  check1Err : Option Str
  /-- error from `askForPassword` -/
  askErr : Option Str
  /-- the pin bytes `askForPassword` captures -/
  pin : Str
  /-- items pinentry-mac itself may add to the keychain while the user
  interacts with it (the ownership race) -/
  helperAdds : List SecretRecord
  /-- error from the re-check `checkEntryInKeychain` -/
  check2Err : Option Str
  /-- result of `keychain.AddItem` when the orchestrator stores the pin -/
  createErr : Option CreateErr
  /-- result of the Touch ID challenge -/
  authResult : AuthResult
  /-- error from the `passwordFromKeychain` query -/
  readErr : Option Str
deriving DecidableEq, Repr

/-- Store operations a run performs, in order. -/
inductive StoreOp
  | existsCheck (label : Str)
  | readQuery (label : Str)
  | create (r : SecretRecord)
deriving DecidableEq, Repr

/-- `true` for the data-returning read query issued by `passwordFromKeychain`. -/
def StoreOp.isRead : StoreOp → Bool
  | .readQuery _ => true
  | _ => false

/-- `true` for the `keychain.AddItem` write issued by `storePasswordInKeychain`. -/
def StoreOp.isCreate : StoreOp → Bool
  | .create _ => true
  | _ => false

/-- How one `GetPIN` call ends. -/
inductive Outcome
  /-- the closure returns `(response, nil)` -/
  | ok (response : Str)
  /-- `logger.Fatalf` (or `log.Fatalf`) ran: the process exits -/
  | fatalStop
  /-- a Go runtime panic (indexing a nil or empty slice) -/
  | panicked
deriving DecidableEq, Repr

/-- Everything observable about one `GetPIN` call. -/
structure RunResult where
  outcome : Outcome
  log : List Str
  ops : List StoreOp
  finalStore : Store
deriving DecidableEq, Repr

/-- `logger.Fatalf("Invalid keyID: %s", keyID)` -/
def msgInvalidKeyId (k : Str) : Str := "Invalid keyID: ".toList ++ k

/-- `logger.Fatalf("error checking entry in keychain: %s", err)` -/
def msgCheckErr (e : Str) : Str := "error checking entry in keychain: ".toList ++ e

/-- `logger.Printf("Error calling pinentry-mac: %s", err)` -/
def msgAskErr (e : Str) : Str := "Error calling pinentry-mac: ".toList ++ e

/-- `logger.Fatalf("pinentry-mac didn't return a password")` -/
def msgNoPassword : Str := "pinentry-mac didn't return a password".toList

/-- `logger.Fatalf("Duplicated entry in the keychain")` -/
def msgDuplicate : Str := "Duplicated entry in the keychain".toList

/-- `logger.Printf` notice when pinentry-mac created the entry first -/
def msgHelperOwned : Str :=
  "The keychain entry was created by pinentry-mac. Permission will be required on next run.".toList

/-- `logger.Fatalf("Error authenticating with Touch ID: %s", err)` -/
def msgAuthErr (e : Str) : Str := "Error authenticating with Touch ID: ".toList ++ e

/-- `logger.Printf("Failed to authenticate")` -/
def msgAuthFailed : Str := "Failed to authenticate".toList

/-- `log.Printf("Error fetching password from Keychain %s", err)` -/
def msgReadErr (e : Str) : Str := "Error fetching password from Keychain ".toList ++ e

/-- How `passwordFromKeychain` ends. -/
inductive ReadResult
  | ok (data : Str)
  | err (msg : Str)
  | panicked
deriving DecidableEq, Repr

/-- `passwordFromKeychain` (lines 85-102 of `main.go`) applied to the result
of the data-returning keychain query: a query error is returned; more than
one result is the "multiple passwords matched" error; otherwise the code
indexes `results[0]` — a runtime panic when the query succeeded with zero
items. -/
def passwordFromKeychain (queryRes : Except Str (List SecretRecord)) : ReadResult :=
  match queryRes with
  | .error e => .err e
  | .ok results =>
    if results.length > 1 then .err "multiple passwords matched the query".toList
    else
      match results with
      | [] => .panicked
      | r :: _ => .ok r.payload

/-- `fmt.Sprintf("%s <%s> (%s)", name, email, keyID)` -/
def keychainLabel (name email keyID : Str) : Str :=
  name ++ " <".toList ++ email ++ "> (".toList ++ keyID ++ ")".toList

/-- `strings.Split` on a one-character separator, Go semantics
(`Split("", sep) = [""]`). -/
def goSplitChar (sep : Char) : Str → List Str
  | [] => [[]]
  | c :: rest =>
    if c = sep then [] :: goSplitChar sep rest
    else
      match goSplitChar sep rest with
      | [] => [[c]]
      | g :: gs => (c :: g) :: gs

/-- The substring after the first `/`, the spec's description of the
`cacheId` taken from a correlation id of the form `x/cacheId`. -/
def afterFirstSlash (l : Str) : Str := (l.dropWhile (fun ch => ch ≠ '/')).drop 1

/-- The FOUND branch of `GetPIN` (lines 217-234): Touch ID challenge, then
the data-returning keychain read. -/
def foundBranch (env : Env) (label : Str) : RunResult :=
  match env.authResult with
  | .err e => ⟨.fatalStop, [msgAuthErr e], [.existsCheck label], env.st⟩
  | .ok false => ⟨.ok [], [msgAuthFailed], [.existsCheck label], env.st⟩
  | .ok true =>
    let queryRes : Except Str (List SecretRecord) :=
      match env.readErr with
      | some e => .error e
      | none => .ok ((env.st.filter (fun r => r.label == label)).take 1)
    match passwordFromKeychain queryRes with
    | .err e => ⟨.ok [], [msgReadErr e], [.existsCheck label, .readQuery label], env.st⟩
    | .panicked => ⟨.panicked, [], [.existsCheck label, .readQuery label], env.st⟩
    | .ok data => ⟨.ok data, [], [.existsCheck label, .readQuery label], env.st⟩

/-- The ABSENT branch of `GetPIN` (lines 178-215): ask pinentry-mac, bail out
fatally on an empty pin, split `KeyInfo`, re-check existence, and either
store the pin or note that pinentry-mac owns the entry; the captured pin is
returned in every surviving path. -/
def absentBranch (env : Env) (s : Settings) (label : Str) : RunResult :=
  let askLog : List Str :=
    match env.askErr with
    | some e => [msgAskErr e]
    | none => []
  let st2 := env.st ++ env.helperAdds
  if env.pin = [] then
    ⟨.fatalStop, askLog ++ [msgNoPassword], [.existsCheck label], st2⟩
  else
    match (goSplitChar '/' s.keyInfo)[1]? with
    | none => ⟨.panicked, askLog, [.existsCheck label], st2⟩
    | some keyInfo =>
      match env.check2Err with
      | some e =>
        ⟨.fatalStop, askLog ++ [msgCheckErr e],
          [.existsCheck label, .existsCheck label], st2⟩
      | none =>
        if storeHas st2 label then
          ⟨.ok env.pin, askLog ++ [msgHelperOwned],
            [.existsCheck label, .existsCheck label], st2⟩
        else
          let newRec : SecretRecord := ⟨label, keyInfo, env.pin⟩
          match env.createErr with
          | some .duplicate =>
            ⟨.fatalStop, askLog ++ [msgDuplicate],
              [.existsCheck label, .existsCheck label, .create newRec], st2⟩
          | some (.other _) =>
            ⟨.ok env.pin, askLog,
              [.existsCheck label, .existsCheck label, .create newRec], st2⟩
          | none =>
            ⟨.ok env.pin, askLog,
              [.existsCheck label, .existsCheck label, .create newRec],
              st2 ++ [newRec]⟩

/-- The `GetPIN` closure (lines 151-236 of `main.go`): parse the description,
compute the keychain label, check existence, and dispatch to the ABSENT
(first capture) or FOUND (repeat access) branch. -/
def GetPIN (env : Env) (s : Settings) : RunResult :=
  match parseDesc s.desc with
  | .panicEmail => ⟨.panicked, [], [], env.st⟩
  | .panicKeyId => ⟨.panicked, [], [], env.st⟩
  | .badKeyId k => ⟨.fatalStop, [msgInvalidKeyId k], [], env.st⟩
  | .ok name email keyID =>
    let label := keychainLabel name email keyID
    match env.check1Err with
    | some e => ⟨.fatalStop, [msgCheckErr e], [.existsCheck label], env.st⟩
    | none =>
      if storeHas env.st label then foundBranch env label
      else absentBranch env s label

/-! ## Dispatch lemmas and list helpers -/

/-- When parsing succeeds, the first existence check succeeds and the label is
present, `GetPIN` runs the FOUND branch. -/
theorem GetPIN_found (env : Env) (s : Settings) {n e k : Str}
    (hparse : parseDesc s.desc = .ok n e k)
    (hchk : env.check1Err = none)
    (hfound : storeHas env.st (keychainLabel n e k) = true) :
    GetPIN env s = foundBranch env (keychainLabel n e k) := by
  unfold GetPIN
  rw [hparse, hchk]
  simp [hfound]

/-- When parsing succeeds, the first existence check succeeds and the label is
absent, `GetPIN` runs the ABSENT branch. -/
theorem GetPIN_absent (env : Env) (s : Settings) {n e k : Str}
    (hparse : parseDesc s.desc = .ok n e k)
    (hchk : env.check1Err = none)
    (habs : storeHas env.st (keychainLabel n e k) = false) :
    GetPIN env s = absentBranch env s (keychainLabel n e k) := by
  unfold GetPIN
  rw [hparse, hchk]
  simp [habs]

/-- Splitting a string without the separator yields the whole string. -/
theorem goSplitChar_not_mem (sep : Char) :
    ∀ (l : Str), sep ∉ l → goSplitChar sep l = [l]
  | [], _ => rfl
  | c :: rest, h => by
    have hc : ¬ c = sep := fun he => h (he ▸ List.mem_cons_self c rest)
    have hr := goSplitChar_not_mem sep rest (fun hm => h (List.mem_cons_of_mem c hm))
    simp [goSplitChar, hc, hr]

/-- Splitting past a separator-free prefix peels that prefix off. -/
theorem goSplitChar_append (sep : Char) :
    ∀ (x : Str) (rest : Str), sep ∉ x →
      goSplitChar sep (x ++ sep :: rest) = x :: goSplitChar sep rest
  | [], rest, _ => by simp [goSplitChar]
  | c :: xs, rest, hx => by
    have hc : ¬ c = sep := fun he => hx (he ▸ List.mem_cons_self c xs)
    have hr := goSplitChar_append sep xs rest (fun hm => hx (List.mem_cons_of_mem c hm))
    simp [goSplitChar, hc, hr]

/-- On a correlation id of the form `x/cacheId` the substring after the first
slash is the `cacheId`. -/
theorem afterFirstSlash_append :
    ∀ (x c : Str), '/' ∉ x → afterFirstSlash (x ++ '/' :: c) = c
  | [], c, _ => by simp [afterFirstSlash]
  | a :: xs, c, hx => by
    have ha : ¬ a = '/' := fun he => hx (he ▸ List.mem_cons_self a xs)
    have hr := afterFirstSlash_append xs c (fun hm => hx (List.mem_cons_of_mem a hm))
    simpa [afterFirstSlash, List.dropWhile, ha] using hr

/-- Records related by label-and-account equality. -/
def sameShape (r₁ r₂ : SecretRecord) : Prop :=
  r₁.label = r₂.label ∧ r₁.account = r₂.account

/-- Stores whose items agree on labels answer existence checks identically. -/
theorem storeHas_forall₂ {a b : Store}
    (h : List.Forall₂ sameShape a b) (l : Str) : storeHas a l = storeHas b l := by
  induction h with
  | nil => rfl
  | cons hr _ ih =>
    simp only [storeHas, List.any_cons] at *
    rw [hr.1, ih]

/-- Label-scoped filtering preserves the label-and-account relation. -/
theorem storeFilter_forall₂ {a b : Store}
    (h : List.Forall₂ sameShape a b) (l : Str) :
    List.Forall₂ sameShape (a.filter (fun r => r.label == l))
      (b.filter (fun r => r.label == l)) := by
  induction h with
  | nil => exact List.Forall₂.nil
  | cons hr htail ih =>
    rename_i x y _ _
    by_cases hl : x.label == l
    · have hl' : (y.label == l) = true := by
        rw [← hr.1]; exact hl
      simpa [List.filter, hl, hl'] using List.Forall₂.cons hr ih
    · have hl' : (y.label == l) = false := by
        rw [show y.label = x.label from (hr.1).symm]
        simpa using hl
      simpa [List.filter, hl, hl'] using ih

/-! ## Concrete fixtures -/

/-- A gpg-style request description carrying the quoted identity and a key id
of a given length. -/
def descWithKeyId (k : Str) : Str :=
  "You need a passphrase to unlock the secret key for user: \"Alice <alice@example.com>\" 2048-bit RSA key ID ".toList
    ++ k ++ ", created 2021-01-01".toList

/-- The description used by the concrete witnesses (key id `A1B2C3D4`). -/
def descGood : Str := descWithKeyId "A1B2C3D4".toList

/-- The keychain label derived from `descGood`. -/
def labelGood : Str :=
  keychainLabel "Alice".toList "alice@example.com".toList "A1B2C3D4".toList

/-- Settings for the concrete witnesses: `descGood` plus a `KeyInfo` of the
documented `x/cacheId` shape. -/
def sGood : Settings := ⟨descGood, "x/cacheid".toList⟩

/-- A stored record under `labelGood` with payload `9999`. -/
def recGood : SecretRecord := ⟨labelGood, "cacheid".toList, "9999".toList⟩

/-- Deny environment: `labelGood` stored, Touch ID answers "not allowed". -/
def envFoundDeny : Env := ⟨[recGood], none, none, [], [], none, none, .ok false, none⟩

/-! ## Claims -/

/-- C1: on the FOUND branch a stored payload is only returned after the
Authenticator allowed the access in the same call: a denial yields the empty
response with no read query, no store write, no termination and an unchanged
store, and any run whose operation trace contains the data-returning read had
an allowing authentication result. -/
theorem getPIN_repeat_access_gating (env : Env) (s : Settings) (n e k : Str)
    (hparse : parseDesc s.desc = .ok n e k)
    (hchk : env.check1Err = none)
    (hfound : storeHas env.st (keychainLabel n e k) = true) :
    (env.authResult = .ok false →
      GetPIN env s =
        ⟨.ok [], [msgAuthFailed], [.existsCheck (keychainLabel n e k)], env.st⟩) ∧
    (∀ op ∈ (GetPIN env s).ops, op.isRead = true → env.authResult = .ok true) := by
  rw [GetPIN_found env s hparse hchk hfound]
  constructor
  · intro hdeny
    simp [foundBranch, hdeny]
  · intro op hop hread
    cases hauth : env.authResult with
    | err e =>
      simp [foundBranch, hauth] at hop
      subst hop
      simp [StoreOp.isRead] at hread
    | ok b =>
      cases b with
      | false =>
        simp [foundBranch, hauth] at hop
        subst hop
        simp [StoreOp.isRead] at hread
      | true => rfl

/-- C1 witness: the deny scenario on the concrete fixture returns the empty
response, logs only the failure notice, and performs no read. -/
theorem getPIN_repeat_access_gating_witness :
    GetPIN envFoundDeny sGood =
      ⟨.ok [], [msgAuthFailed], [.existsCheck labelGood], [recGood]⟩ :=
  (getPIN_repeat_access_gating envFoundDeny sGood
    "Alice".toList "alice@example.com".toList "A1B2C3D4".toList
    (by decide) rfl (by decide)).1 rfl

/-- Allow-but-read-fails environment for the C8 witness. -/
def envReadErr : Env :=
  ⟨[recGood], none, none, [], [], none, none, .ok true, some "boom".toList⟩

/-- C8: on the FOUND branch, when Touch ID allows and the keychain read
fails, the error is logged (`log.Printf`) and the caller receives the empty
response — the program's caller-visible failure result — while the process
does not terminate (the outcome is a normal return, not `Fatalf`). -/
theorem getPIN_read_error_logged_nonfatal (env : Env) (s : Settings) (n e k er : Str)
    (hparse : parseDesc s.desc = .ok n e k)
    (hchk : env.check1Err = none)
    (hfound : storeHas env.st (keychainLabel n e k) = true)
    (hallow : env.authResult = .ok true)
    (hread : env.readErr = some er) :
    GetPIN env s =
      ⟨.ok [], [msgReadErr er],
        [.existsCheck (keychainLabel n e k), .readQuery (keychainLabel n e k)],
        env.st⟩ := by
  rw [GetPIN_found env s hparse hchk hfound]
  simp [foundBranch, hallow, hread, passwordFromKeychain]

/-- C8 witness: the concrete read-failure scenario logs the fetch error and
returns the empty response. -/
theorem getPIN_read_error_logged_nonfatal_witness :
    GetPIN envReadErr sGood =
      ⟨.ok [], [msgReadErr "boom".toList],
        [.existsCheck labelGood, .readQuery labelGood], [recGood]⟩ :=
  getPIN_read_error_logged_nonfatal envReadErr sGood
    "Alice".toList "alice@example.com".toList "A1B2C3D4".toList "boom".toList
    (by decide) rfl (by decide) rfl rfl

/-- C9: `passwordFromKeychain` indexes `results[0]` guarded only by a
`len(results) > 1` check, so a query that succeeds with zero matching items
is a runtime panic, not an error return and not an empty result. -/
theorem passwordFromKeychain_zero_results_panics :
    passwordFromKeychain (Except.ok []) = ReadResult.panicked := rfl

/-- Race environment: the store starts empty, pinentry-mac itself adds an
entry under `labelGood` while the user types the pin. -/
def envRace : Env :=
  ⟨[], none, none, "1234".toList, [⟨labelGood, "mac".toList, "1234".toList⟩],
    none, none, .ok true, none⟩

/-- Plain first-capture environment: store empty, helper adds nothing. -/
def envAbsent : Env := ⟨[], none, none, "1234".toList, [], none, none, .ok true, none⟩

/-- C2: in the ABSENT branch, once the helper returned a non-empty pin the
code re-checks existence before any write; if the entry now exists the trace
holds the two existence checks and nothing else and the call returns the pin
(non-fatal), if it is still absent exactly one create of the new record is
issued after the re-check, and a duplicate-entry error from that create is
fatal. -/
theorem getPIN_recheck_then_single_create (env : Env) (s : Settings) (n e k ki : Str)
    (hparse : parseDesc s.desc = .ok n e k)
    (hchk : env.check1Err = none)
    (habs : storeHas env.st (keychainLabel n e k) = false)
    (hpin : env.pin ≠ [])
    (hsplit : (goSplitChar '/' s.keyInfo)[1]? = some ki)
    (hchk2 : env.check2Err = none) :
    (storeHas (env.st ++ env.helperAdds) (keychainLabel n e k) = true →
      (GetPIN env s).ops =
        [.existsCheck (keychainLabel n e k), .existsCheck (keychainLabel n e k)] ∧
      (GetPIN env s).outcome = .ok env.pin) ∧
    (storeHas (env.st ++ env.helperAdds) (keychainLabel n e k) = false →
      (GetPIN env s).ops =
        [.existsCheck (keychainLabel n e k), .existsCheck (keychainLabel n e k),
          .create ⟨keychainLabel n e k, ki, env.pin⟩] ∧
      (env.createErr = some .duplicate → (GetPIN env s).outcome = .fatalStop)) := by
  rw [GetPIN_absent env s hparse hchk habs]
  constructor
  · intro hrace
    simp [absentBranch, hpin, hsplit, hchk2, hrace]
  · intro hstill
    constructor
    · rcases hc : env.createErr with _ | ce
      · simp [absentBranch, hpin, hsplit, hchk2, hstill, hc]
      · cases ce <;> simp [absentBranch, hpin, hsplit, hchk2, hstill, hc]
    · intro hdup
      simp [absentBranch, hpin, hsplit, hchk2, hstill, hdup]

/-- C2 witness: in the concrete race scenario the trace is the two existence
checks with no write and the captured pin is returned. -/
theorem getPIN_recheck_then_single_create_witness :
    (GetPIN envRace sGood).ops = [.existsCheck labelGood, .existsCheck labelGood] ∧
    (GetPIN envRace sGood).outcome = .ok "1234".toList :=
  (getPIN_recheck_then_single_create envRace sGood
    "Alice".toList "alice@example.com".toList "A1B2C3D4".toList "cacheid".toList
    (by decide) rfl (by decide) (by decide) (by decide) rfl).1 (by decide)

/-- Every outcome of the ABSENT branch that is a normal return carries
exactly the captured pin bytes. -/
theorem absentBranch_ok_pin (env : Env) (s : Settings) (label r : Str)
    (h : (absentBranch env s label).outcome = .ok r) : r = env.pin := by
  unfold absentBranch at h
  repeat' split at h
  all_goals
    by_cases hsh : storeHas (env.st ++ env.helperAdds) label = true <;> simp_all

/-- The ABSENT branch never issues the data-returning read query. -/
theorem absentBranch_no_read (env : Env) (s : Settings) (label : Str) :
    ((absentBranch env s label).ops).all (fun op => !op.isRead) = true := by
  unfold absentBranch
  repeat' split
  all_goals
    by_cases hsh : storeHas (env.st ++ env.helperAdds) label = true <;>
      simp_all [StoreOp.isRead]

/-- C4: in the ABSENT branch with a non-empty captured pin, any value the
call returns equals exactly the captured bytes, and no data-returning store
read occurs — regardless of whether the orchestrator or the helper created
the stored record. -/
theorem getPIN_first_capture_returns_pin (env : Env) (s : Settings) (n e k : Str)
    (hparse : parseDesc s.desc = .ok n e k)
    (hchk : env.check1Err = none)
    (habs : storeHas env.st (keychainLabel n e k) = false)
    (hpin : env.pin ≠ []) :
    (∀ r, (GetPIN env s).outcome = .ok r → r = env.pin) ∧
    ((GetPIN env s).ops).all (fun op => !op.isRead) = true := by
  rw [GetPIN_absent env s hparse hchk habs]
  exact ⟨fun r hr => absentBranch_ok_pin env s _ r hr, absentBranch_no_read env s _⟩

/-- C4 witness: in the concrete race scenario the returned bytes are the
captured pin and the trace holds no read query. -/
theorem getPIN_first_capture_returns_pin_witness :
    "1234".toList = envRace.pin ∧
    ((GetPIN envRace sGood).ops).all (fun op => !op.isRead) = true :=
  ⟨(getPIN_first_capture_returns_pin envRace sGood
      "Alice".toList "alice@example.com".toList "A1B2C3D4".toList
      (by decide) rfl (by decide) (by decide)).1 "1234".toList (by decide),
    (getPIN_first_capture_returns_pin envRace sGood
      "Alice".toList "alice@example.com".toList "A1B2C3D4".toList
      (by decide) rfl (by decide) (by decide)).2⟩

def envEmptyPin : Env := ⟨[], none, none, [], [], none, none, .ok true, none⟩

/-- C6 counterexample: with an empty capture on the concrete fixture the
outcome is `logger.Fatalf` termination, not the empty/failed response the
claim asserts — the process does not continue serving requests. -/
theorem getPIN_empty_capture_cex :
    (GetPIN envEmptyPin sGood).outcome = .fatalStop ∧
    (GetPIN envEmptyPin sGood).outcome ≠ .ok [] := by
  exact ⟨by decide, by decide⟩

/-- C6 (amended): an empty capture (the helper returns no bytes) is a fatal
condition: `GetPIN` logs `pinentry-mac didn't return a password` via
`logger.Fatalf` and the process terminates; nothing is returned to the
caller. -/
theorem getPIN_empty_capture_fatal (env : Env) (s : Settings) (n e k : Str)
    (hparse : parseDesc s.desc = .ok n e k)
    (hchk : env.check1Err = none)
    (habs : storeHas env.st (keychainLabel n e k) = false)
    (hask : env.askErr = none)
    (hpin : env.pin = []) :
    GetPIN env s =
      ⟨.fatalStop, [msgNoPassword], [.existsCheck (keychainLabel n e k)],
        env.st ++ env.helperAdds⟩ := by
  rw [GetPIN_absent env s hparse hchk habs]
  simp [absentBranch, hask, hpin]

/-- C6 witness: the amended statement evaluated on the concrete
empty-capture fixture. -/
theorem getPIN_empty_capture_fatal_witness :
    GetPIN envEmptyPin sGood =
      ⟨.fatalStop, [msgNoPassword], [.existsCheck labelGood], []⟩ :=
  getPIN_empty_capture_fatal envEmptyPin sGood
    "Alice".toList "alice@example.com".toList "A1B2C3D4".toList
    (by decide) rfl (by decide) rfl rfl

/-- C7: for every `KeyInfo` correlation id of the documented form
`x/cacheId`, the record the orchestrator creates carries as its account
attribute exactly the substring of the correlation id after the first `/`
(which is the `cacheId`). -/
theorem getPIN_create_account_cacheid (env : Env) (s : Settings) (n e k x c : Str)
    (hparse : parseDesc s.desc = .ok n e k)
    (hchk : env.check1Err = none)
    (habs : storeHas env.st (keychainLabel n e k) = false)
    (hpin : env.pin ≠ [])
    (hki : s.keyInfo = x ++ '/' :: c)
    (hx : '/' ∉ x) (hc : '/' ∉ c)
    (hchk2 : env.check2Err = none)
    (hstill : storeHas (env.st ++ env.helperAdds) (keychainLabel n e k) = false) :
    (GetPIN env s).ops =
      [.existsCheck (keychainLabel n e k), .existsCheck (keychainLabel n e k),
        .create ⟨keychainLabel n e k, afterFirstSlash s.keyInfo, env.pin⟩] ∧
    afterFirstSlash s.keyInfo = c := by
  have hafter : afterFirstSlash s.keyInfo = c := by
    rw [hki]; exact afterFirstSlash_append x c hx
  have hsplit : (goSplitChar '/' s.keyInfo)[1]? = some c := by
    rw [hki, goSplitChar_append '/' x c hx, goSplitChar_not_mem '/' c hc]
    simp
  refine ⟨?_, hafter⟩
  rw [GetPIN_absent env s hparse hchk habs, hafter]
  rcases hcr : env.createErr with _ | ce
  · simp [absentBranch, hpin, hsplit, hchk2, hstill, hcr]
  · cases ce <;> simp [absentBranch, hpin, hsplit, hchk2, hstill, hcr]

/-- C7 witness: with `KeyInfo` = `x/cacheid` the created record and its
account `cacheid` on the concrete fixture. -/
theorem getPIN_create_account_cacheid_witness :
    (GetPIN envAbsent sGood).ops =
      [.existsCheck labelGood, .existsCheck labelGood,
        .create ⟨labelGood, afterFirstSlash sGood.keyInfo, "1234".toList⟩] ∧
    afterFirstSlash sGood.keyInfo = "cacheid".toList :=
  getPIN_create_account_cacheid envAbsent sGood
    "Alice".toList "alice@example.com".toList "A1B2C3D4".toList
    "x".toList "cacheid".toList
    (by decide) rfl (by decide) (by decide) (by decide) (by decide) (by decide) rfl (by decide)

/-- `storeHas` distributes over appended stores. -/
theorem storeHas_append (a b : Store) (l : Str) :
    storeHas (a ++ b) l = (storeHas a l || storeHas b l) := by
  simp [storeHas, List.any_append]

/-- First-capture environment whose create attempt fails with an error other
than the duplicate-entry error. -/
def envCreateFail : Env :=
  ⟨[], none, none, "1234".toList, [], none, some (.other "io error".toList), .ok true, none⟩

/-- C10: in the ABSENT branch a create error other than DuplicateEntry is
silently ignored: the captured pin is still returned with no error and no
log line, no record was persisted, so the label is still absent afterwards
and a next request over the resulting store re-enters the first-capture path
with the identical operation trace. -/
theorem getPIN_create_error_silently_ignored (env : Env) (s : Settings) (n e k ki er : Str)
    (hparse : parseDesc s.desc = .ok n e k)
    (hchk : env.check1Err = none)
    (habs : storeHas env.st (keychainLabel n e k) = false)
    (hpin : env.pin ≠ [])
    (hask : env.askErr = none)
    (hsplit : (goSplitChar '/' s.keyInfo)[1]? = some ki)
    (hchk2 : env.check2Err = none)
    (hstill : storeHas (env.st ++ env.helperAdds) (keychainLabel n e k) = false)
    (hcr : env.createErr = some (.other er)) :
    (GetPIN env s).outcome = .ok env.pin ∧
    (GetPIN env s).log = [] ∧
    (GetPIN env s).finalStore = env.st ++ env.helperAdds ∧
    storeHas (GetPIN env s).finalStore (keychainLabel n e k) = false ∧
    (GetPIN { env with st := (GetPIN env s).finalStore } s).outcome = .ok env.pin ∧
    (GetPIN { env with st := (GetPIN env s).finalStore } s).ops = (GetPIN env s).ops := by
  have hrun : GetPIN env s =
      ⟨.ok env.pin, [],
        [.existsCheck (keychainLabel n e k), .existsCheck (keychainLabel n e k),
          .create ⟨keychainLabel n e k, ki, env.pin⟩],
        env.st ++ env.helperAdds⟩ := by
    rw [GetPIN_absent env s hparse hchk habs]
    simp [absentBranch, hpin, hask, hsplit, hchk2, hstill, hcr]
  have hstill2 :
      storeHas (env.st ++ (env.helperAdds ++ env.helperAdds)) (keychainLabel n e k) = false := by
    simp only [storeHas, List.any_append, Bool.or_eq_false_iff] at hstill ⊢
    exact ⟨hstill.1, hstill.2, hstill.2⟩
  have hrun2 : GetPIN { env with st := env.st ++ env.helperAdds } s =
      ⟨.ok env.pin, [],
        [.existsCheck (keychainLabel n e k), .existsCheck (keychainLabel n e k),
          .create ⟨keychainLabel n e k, ki, env.pin⟩],
        (env.st ++ env.helperAdds) ++ env.helperAdds⟩ := by
    rw [GetPIN_absent { env with st := env.st ++ env.helperAdds } s hparse hchk hstill]
    simp [absentBranch, hpin, hask, hsplit, hchk2, hstill2, hcr]
  rw [hrun]
  simp only []
  rw [hrun2]
  simp [hstill]

/-- C10 witness: the concrete failed-create scenario returns the pin, logs
nothing, leaves the store empty, and a repeat over the final store replays
the same first-capture trace. -/
theorem getPIN_create_error_silently_ignored_witness :
    (GetPIN envCreateFail sGood).outcome = .ok envCreateFail.pin ∧
    (GetPIN envCreateFail sGood).log = [] ∧
    (GetPIN envCreateFail sGood).finalStore = [] ∧
    storeHas (GetPIN envCreateFail sGood).finalStore labelGood = false ∧
    (GetPIN { envCreateFail with st := (GetPIN envCreateFail sGood).finalStore } sGood).outcome =
      .ok envCreateFail.pin ∧
    (GetPIN { envCreateFail with st := (GetPIN envCreateFail sGood).finalStore } sGood).ops =
      (GetPIN envCreateFail sGood).ops :=
  getPIN_create_error_silently_ignored envCreateFail sGood
    "Alice".toList "alice@example.com".toList "A1B2C3D4".toList
    "cacheid".toList "io error".toList
    (by decide) rfl (by decide) (by decide) rfl (by decide) rfl (by decide) rfl

/-- C3: parsing succeeds exactly when the quoted `"Name <email>"` pattern
matches, the `ID <keyId>,` pattern matches, and the extracted key id has
length 8 or 16; every parse failure ends the call fatally (a `Fatalf` stop
or a runtime panic — nothing else) before any store access; at the
boundary, key ids of lengths 7, 9, 15 and 17 fail while 8 and 16 succeed. -/
theorem requestParser_failure_iff (s : Settings) (env : Env) :
    (parseOk s.desc = true ↔
      (∃ p, emailScan s.desc = some p) ∧
      (∃ k, keyIdScan s.desc = some k ∧ (k.length = 8 ∨ k.length = 16))) ∧
    (parseOk s.desc = false →
      ((GetPIN env s).outcome = .fatalStop ∨ (GetPIN env s).outcome = .panicked) ∧
      (GetPIN env s).ops = []) ∧
    parseOk (descWithKeyId "A1B2C3D".toList) = false ∧
    parseOk (descWithKeyId "A1B2C3D4".toList) = true ∧
    parseOk (descWithKeyId "A1B2C3D45".toList) = false ∧
    parseOk (descWithKeyId "A1B2C3D4E5F6G7H".toList) = false ∧
    parseOk (descWithKeyId "A1B2C3D4E5F6G7H8".toList) = true ∧
    parseOk (descWithKeyId "A1B2C3D4E5F6G7H8I".toList) = false := by
  refine ⟨?_, ?_, by decide, by decide, by decide, by decide, by decide, by decide⟩
  · unfold parseOk parseDesc
    cases hE : emailScan s.desc with
    | none => simp
    | some p =>
      obtain ⟨a, b⟩ := p
      cases hK : keyIdScan s.desc with
      | none => simp
      | some k =>
        by_cases hl : k.length = 8 ∨ k.length = 16
        · simp [hl]
        · simp [hl]
  · intro hfail
    unfold GetPIN
    cases hP : parseDesc s.desc with
    | ok n e k => simp [parseOk, hP] at hfail
    | panicEmail => simp
    | panicKeyId => simp
    | badKeyId k => simp

/-- C3 witness: the fatal-or-panic consequence evaluated on a concrete
7-character key id description. -/
theorem requestParser_failure_iff_witness :
    ((GetPIN envAbsent ⟨descWithKeyId "A1B2C3D".toList, "x/cacheid".toList⟩).outcome = .fatalStop ∨
      (GetPIN envAbsent ⟨descWithKeyId "A1B2C3D".toList, "x/cacheid".toList⟩).outcome = .panicked) ∧
    (GetPIN envAbsent ⟨descWithKeyId "A1B2C3D".toList, "x/cacheid".toList⟩).ops = [] :=
  (requestParser_failure_iff ⟨descWithKeyId "A1B2C3D".toList, "x/cacheid".toList⟩ envAbsent).2.1
    (by decide)

/-- A missing email/name match makes `GetPIN` index a nil slice: runtime
panic before any logging or store access. -/
theorem GetPIN_panicEmail (env : Env) (s : Settings)
    (h : parseDesc s.desc = .panicEmail) :
    GetPIN env s = ⟨.panicked, [], [], env.st⟩ := by
  unfold GetPIN; rw [h]

/-- A missing key-id match makes `GetPIN` index a nil slice likewise. -/
theorem GetPIN_panicKeyId (env : Env) (s : Settings)
    (h : parseDesc s.desc = .panicKeyId) :
    GetPIN env s = ⟨.panicked, [], [], env.st⟩ := by
  unfold GetPIN; rw [h]

/-- A key id of invalid length runs `logger.Fatalf` before any store access. -/
theorem GetPIN_badKeyId (env : Env) (s : Settings) (k : Str)
    (h : parseDesc s.desc = .badKeyId k) :
    GetPIN env s = ⟨.fatalStop, [msgInvalidKeyId k], [], env.st⟩ := by
  unfold GetPIN; rw [h]

/-- An error from the first existence check is fatal. -/
theorem GetPIN_checkErr (env : Env) (s : Settings) (n e k er : Str)
    (hparse : parseDesc s.desc = .ok n e k)
    (hchk : env.check1Err = some er) :
    GetPIN env s =
      ⟨.fatalStop, [msgCheckErr er], [.existsCheck (keychainLabel n e k)], env.st⟩ := by
  unfold GetPIN; rw [hparse, hchk]

/-- Two environments that agree on everything except the secret bytes: the
captured pin is unconstrained and the stored items may differ in payload but
agree item-by-item on label and account. -/
def differOnlyInSecrets (e₁ e₂ : Env) : Prop :=
  List.Forall₂ sameShape e₁.st e₂.st ∧
  List.Forall₂ sameShape e₁.helperAdds e₂.helperAdds ∧
  e₁.check1Err = e₂.check1Err ∧
  e₁.askErr = e₂.askErr ∧
  e₁.check2Err = e₂.check2Err ∧
  e₁.createErr = e₂.createErr ∧
  e₁.authResult = e₂.authResult ∧
  e₁.readErr = e₂.readErr

/-- The FOUND branch's log never depends on stored payload bytes. -/
theorem foundBranch_log_eq (e₁ e₂ : Env) (label : Str)
    (hau : e₁.authResult = e₂.authResult)
    (hre : e₁.readErr = e₂.readErr) :
    (foundBranch e₁ label).log = (foundBranch e₂ label).log := by
  unfold foundBranch
  rw [hau]
  cases hA : e₂.authResult with
  | err er => rfl
  | ok b =>
    cases b with
    | false => rfl
    | true =>
      rw [hre]
      cases hR : e₂.readErr with
      | some er => rfl
      | none =>
        cases hq₁ : e₁.st.filter (fun r => r.label == label) with
        | nil =>
          cases hq₂ : e₂.st.filter (fun r => r.label == label) with
          | nil => rfl
          | cons b bs => rfl
        | cons a as =>
          cases hq₂ : e₂.st.filter (fun r => r.label == label) with
          | nil => rfl
          | cons b bs => rfl

/-- The ABSENT branch's log depends only on non-secret environment data,
given that the two runs agree on whether the captured pin was empty. -/
theorem absentBranch_log_eq (e₁ e₂ : Env) (s : Settings) (label : Str)
    (hst : List.Forall₂ sameShape e₁.st e₂.st)
    (hha : List.Forall₂ sameShape e₁.helperAdds e₂.helperAdds)
    (ha : e₁.askErr = e₂.askErr)
    (h2 : e₁.check2Err = e₂.check2Err)
    (hc : e₁.createErr = e₂.createErr)
    (hpin : e₁.pin = [] ↔ e₂.pin = []) :
    (absentBranch e₁ s label).log = (absentBranch e₂ s label).log := by
  have hst2 : storeHas (e₁.st ++ e₁.helperAdds) label
      = storeHas (e₂.st ++ e₂.helperAdds) label :=
    storeHas_forall₂ (List.rel_append hst hha) label
  simp only [absentBranch]
  rw [ha]
  by_cases hp : e₂.pin = []
  · have hp1 : e₁.pin = [] := hpin.mpr hp
    simp [hp, hp1]
  · have hp1 : ¬ e₁.pin = [] := fun hh => hp (hpin.mp hh)
    simp only [if_neg hp, if_neg hp1]
    cases hS : (goSplitChar '/' s.keyInfo)[1]? with
    | none => rfl
    | some ki =>
      rw [h2]
      cases hc2 : e₂.check2Err with
      | some er => rfl
      | none =>
        rw [hst2]
        cases hS2 : storeHas (e₂.st ++ e₂.helperAdds) label with
        | true => rfl
        | false =>
          rw [hc]
          cases hcr : e₂.createErr with
          | none => rfl
          | some ce => cases ce <;> rfl

/-- C5 counterexample: two environments that differ only in the secret bytes
(empty pin versus pin `1234`, every oracle and store shape identical)
produce different log output — the empty capture takes the fatal path and
logs its fatal line — so the claim's universal form is false as stated. -/
theorem getPIN_log_secret_cex :
    differOnlyInSecrets envEmptyPin envAbsent ∧
    (GetPIN envEmptyPin sGood).log ≠ (GetPIN envAbsent sGood).log :=
  ⟨⟨List.Forall₂.nil, List.Forall₂.nil, rfl, rfl, rfl, rfl, rfl, rfl⟩, by decide⟩

/-- C5 (amended): two runs that differ only in the secret payload bytes
(captured pin and stored payloads) and agree on whether the captured pin is
empty produce identical log output: no secret bytes reach the log, which
carries only labels, reasons and boolean outcomes. -/
theorem getPIN_log_independent_of_secrets (e₁ e₂ : Env) (s : Settings)
    (h : differOnlyInSecrets e₁ e₂)
    (hpin : e₁.pin = [] ↔ e₂.pin = []) :
    (GetPIN e₁ s).log = (GetPIN e₂ s).log := by
  obtain ⟨hst, hha, h1, ha, h2, hc, hau, hre⟩ := h
  cases hP : parseDesc s.desc with
  | panicEmail => rw [GetPIN_panicEmail e₁ s hP, GetPIN_panicEmail e₂ s hP]
  | panicKeyId => rw [GetPIN_panicKeyId e₁ s hP, GetPIN_panicKeyId e₂ s hP]
  | badKeyId k => rw [GetPIN_badKeyId e₁ s k hP, GetPIN_badKeyId e₂ s k hP]
  | ok n e k =>
    cases hc1 : e₁.check1Err with
    | some er =>
      have hc1' : e₂.check1Err = some er := h1.symm.trans hc1
      rw [GetPIN_checkErr e₁ s n e k er hP hc1, GetPIN_checkErr e₂ s n e k er hP hc1']
    | none =>
      have hc1' : e₂.check1Err = none := h1.symm.trans hc1
      have hsh := storeHas_forall₂ hst (keychainLabel n e k)
      cases hF : storeHas e₂.st (keychainLabel n e k) with
      | true =>
        have hF1 : storeHas e₁.st (keychainLabel n e k) = true := by rw [hsh, hF]
        rw [GetPIN_found e₁ s hP hc1 hF1, GetPIN_found e₂ s hP hc1' hF]
        exact foundBranch_log_eq e₁ e₂ _ hau hre
      | false =>
        have hF1 : storeHas e₁.st (keychainLabel n e k) = false := by rw [hsh, hF]
        rw [GetPIN_absent e₁ s hP hc1 hF1, GetPIN_absent e₂ s hP hc1' hF]
        exact absentBranch_log_eq e₁ e₂ s _ hst hha ha h2 hc hpin

/-- Same record as `recGood` with a different payload. -/
def recGood2 : SecretRecord := ⟨labelGood, "cacheid".toList, "0000".toList⟩

/-- FOUND/allow environment storing payload `9999`. -/
def envFoundAllow : Env := ⟨[recGood], none, none, [], [], none, none, .ok true, none⟩

/-- FOUND/allow environment storing payload `0000`. -/
def envFoundAllow2 : Env := ⟨[recGood2], none, none, [], [], none, none, .ok true, none⟩

/-- C5 witness: two concrete repeat-access runs whose stored payloads differ
produce the same (empty) log. -/
theorem getPIN_log_independent_of_secrets_witness :
    (GetPIN envFoundAllow sGood).log = (GetPIN envFoundAllow2 sGood).log :=
  getPIN_log_independent_of_secrets envFoundAllow envFoundAllow2 sGood
    ⟨List.Forall₂.cons ⟨rfl, rfl⟩ List.Forall₂.nil, List.Forall₂.nil,
      rfl, rfl, rfl, rfl, rfl, rfl⟩
    Iff.rfl
